import Mathlib

/-
Verification of the AIVideoMaker video compositing and chroma-key engine.

The definitions below are shallow embeddings of the Python sources:
  app/services/chromakey_service.py        (two-stream pixel path)
  app/services/compositor_service.py       (N-layer graph path)
  app/api/routes/compositor.py             (job lifecycle, cancellation)
  backup_refactoring_20251105_124826/chromakey.py  (legacy two-stream path)

Machine arithmetic is modelled exactly: Python int() applied to a rational is
truncation toward zero, numpy slicing normalises negative bounds by the axis
length and clamps, and numpy broadcasting admits axes that are equal or one.
Fallible code is modelled with Except.
-/

namespace AIVideoMaker

/-- Python int() applied to an exact rational value: truncation toward zero. -/
def pyInt (q : ℚ) : ℤ :=
if q < 0 then -⌊-q⌋ else ⌊q⌋

/-! ## Frame resampling (backup chromakey.py, remove_background_and_overlay_timed)

Inside the visibility window the legacy loop picks the foreground frame with

  fg_frame_idx = int((frame_count - start_frame) * fg_fps / bg_fps)
  if fg_frame_idx >= len(fg_processed_frames): fg_frame_idx = len - 1
  if 0 <= fg_frame_idx < len(fg_processed_frames): use it

so the chosen index is a truncated (floor, for the nonnegative in-window values)
ratio, clamped above to the last processed frame. Division by a zero bg_fps
raises in Python; every theorem below assumes a positive canvas fps. -/

/-- Foreground source-frame selection of the legacy compositing loop: some index
when a foreground frame is composited for canvas frame frameCount, none when the
per-frame guard rejects the index (only possible when no frame was processed). -/
def fgFrameIdx (startFrame fgFps bgFps numFrames frameCount : ℕ) : Option ℕ :=
let i : ℤ := pyInt ((((frameCount : ℚ) - startFrame) * fgFps) / bgFps)
let j : ℤ := if (numFrames : ℤ) ≤ i then (numFrames : ℤ) - 1 else i
if 0 ≤ j ∧ j < numFrames then some j.toNat else none

/-- Source index exactly as claim C1 words it: round of (canvas index minus
start frame) times source fps over canvas fps, clamped to the closed range from
zero to source frame count minus one. -/
def claimSourceIndex (startFrame fgFps bgFps numFrames frameCount : ℕ) : ℤ :=
max 0 (min (round ((((frameCount : ℚ) - startFrame) * fgFps) / bgFps)) ((numFrames : ℤ) - 1))

/-! ## Two-stream probe (chromakey_service.py, ChromakeyService, get video info)

The probe dictionary computes bg_duration = bg_frames / bg_fps and
fg_duration = fg_frames / fg_fps with both fps values coerced through int();
neither division is guarded, so a zero fps raises ZeroDivisionError while the
dictionary literal is being evaluated (background entries first). -/

structure TwoStreamInfo where
  bgFps : ℕ
  bgWidth : ℕ
  bgHeight : ℕ
  bgFrames : ℕ
  bgDuration : ℚ
  fgFps : ℕ
  fgWidth : ℕ
  fgHeight : ℕ
  fgFrames : ℕ
  fgDuration : ℚ
deriving DecidableEq, Repr

/-- Probe of the two opened captures: the unguarded frame-count over fps
divisions surface as a ZeroDivisionError whenever an fps truncates to zero. -/
def getVideoInfo (bgFps bgW bgH bgFrames fgFps fgW fgH fgFrames : ℕ) :
    Except String TwoStreamInfo :=
if bgFps = 0 then .error "ZeroDivisionError"
else if fgFps = 0 then .error "ZeroDivisionError"
else .ok
  { bgFps := bgFps, bgWidth := bgW, bgHeight := bgH, bgFrames := bgFrames
    bgDuration := (bgFrames : ℚ) / bgFps
    fgFps := fgFps, fgWidth := fgW, fgHeight := fgH, fgFrames := fgFrames
    fgDuration := (fgFrames : ℚ) / fgFps }

theorem pyInt_nonneg_eq_floor (q : ℚ) (h : 0 ≤ q) : pyInt q = ⌊q⌋ := by
  simp [pyInt, not_lt.mpr h]

theorem ite_lt_eq_max (d t : ℚ) : (if d < t then t else d) = max d t := by
  rcases lt_or_le d t with h | h
  · simp [h, max_eq_right h.le]
  · simp [not_lt.mpr h, max_eq_left h]

/-- C1 counterexample: with start frame 0, source fps 25, canvas fps 30, ten
processed source frames and canvas index 1, the code truncates 25/30 to source
frame 0, while the claimed rounded formula selects source frame 1. -/
theorem C1_round_formula_fails :
    fgFrameIdx 0 25 30 10 1 = some 0 ∧ claimSourceIndex 0 25 30 10 1 = 1 := by
  constructor
  · simp only [fgFrameIdx, pyInt]
    norm_num
  · simp only [claimSourceIndex]
    norm_num [round_eq]

/-- C1 amended: inside the visibility window and with at least one processed
source frame, the chosen source frame is the floor (Python int truncation, not
round) of (canvas index minus start frame) times source fps over canvas fps,
clamped above to the last processed frame: it therefore never wraps and freezes
on the last frame once the ratio passes the frame count. -/
theorem C1_floor_resample (startFrame fgFps bgFps numFrames frameCount : ℕ)
    (hw : startFrame ≤ frameCount) (hn : 1 ≤ numFrames) (hfps : 1 ≤ bgFps) :
    fgFrameIdx startFrame fgFps bgFps numFrames frameCount =
      some (min (((frameCount - startFrame) * fgFps) / bgFps) (numFrames - 1)) ∧
    ∀ k, fgFrameIdx startFrame fgFps bgFps numFrames frameCount = some k →
      k < numFrames := by
  have hq : (0 : ℚ) ≤ (((frameCount : ℚ) - startFrame) * fgFps) / bgFps := by
    apply div_nonneg
    · apply mul_nonneg _ (by positivity)
      have : (startFrame : ℚ) ≤ frameCount := by exact_mod_cast hw
      linarith
    · positivity
  have hcast : (((frameCount : ℚ) - startFrame) * fgFps) / bgFps =
      (((frameCount - startFrame) * fgFps : ℕ) : ℚ) / (bgFps : ℚ) := by
    push_cast [Nat.cast_sub hw]
    ring
  have hfloor : pyInt ((((frameCount : ℚ) - startFrame) * fgFps) / bgFps) =
      (((frameCount - startFrame) * fgFps) / bgFps : ℕ) := by
    rw [pyInt_nonneg_eq_floor _ hq, hcast]
    exact Rat.floor_natCast_div_natCast _ _
  have hmain : fgFrameIdx startFrame fgFps bgFps numFrames frameCount =
      some (min (((frameCount - startFrame) * fgFps) / bgFps) (numFrames - 1)) := by
    simp only [fgFrameIdx, hfloor]
    by_cases hge : numFrames ≤ ((frameCount - startFrame) * fgFps) / bgFps
    · have h1 : ((numFrames : ℤ)) ≤ (((frameCount - startFrame) * fgFps / bgFps : ℕ) : ℤ) := by
        exact_mod_cast hge
      have hmin : min (((frameCount - startFrame) * fgFps) / bgFps) (numFrames - 1) =
          numFrames - 1 := min_eq_right (le_trans (Nat.sub_le _ _) hge)
      rw [if_pos h1, if_pos (And.intro (by omega : (0 : ℤ) ≤ (numFrames : ℤ) - 1)
        (by omega : (numFrames : ℤ) - 1 < (numFrames : ℤ))), hmin]
      congr 1
      omega
    · have h1 : ¬ ((numFrames : ℤ) ≤ (((frameCount - startFrame) * fgFps / bgFps : ℕ) : ℤ)) := by
        exact_mod_cast hge
      have hmin : min (((frameCount - startFrame) * fgFps) / bgFps) (numFrames - 1) =
          ((frameCount - startFrame) * fgFps) / bgFps :=
        min_eq_left (Nat.le_sub_one_of_lt (lt_of_not_le hge))
      rw [if_neg h1, if_pos (And.intro
        (Int.natCast_nonneg (((frameCount - startFrame) * fgFps / bgFps : ℕ)))
        (not_le.mp h1)), hmin, Int.toNat_natCast]
  refine ⟨hmain, ?_⟩
  intro k hk
  rw [hmain] at hk
  have hk2 : k = min (((frameCount - startFrame) * fgFps) / bgFps) (numFrames - 1) := by
    injection hk with h
    exact h.symm
  have hle : min (((frameCount - startFrame) * fgFps) / bgFps) (numFrames - 1) ≤
      numFrames - 1 := min_le_right _ _
  omega

/-- C1 witness: the amended resampling theorem evaluated at start frame 3,
source fps 25, canvas fps 30, 10 processed frames, canvas frame 4. -/
theorem C1_floor_resample_witness :
    fgFrameIdx 3 25 30 10 4 = some (min ((4 - 3) * 25 / 30) (10 - 1)) ∧
    ∀ k, fgFrameIdx 3 25 30 10 4 = some k → k < 10 :=
  C1_floor_resample 3 25 30 10 4 (by decide) (by decide) (by decide)

/-- C10: the two-stream probe is well defined exactly when both truncated fps
values are at least one; a zero fps makes the unguarded duration division raise
ZeroDivisionError, and with positive fps the probe returns frame count over fps
durations. -/
theorem C10_probe_requires_positive_fps
    (bgFps bgW bgH bgFrames fgFps fgW fgH fgFrames : ℕ) :
    (getVideoInfo bgFps bgW bgH bgFrames fgFps fgW fgH fgFrames =
        .error "ZeroDivisionError" ↔ bgFps = 0 ∨ fgFps = 0) ∧
    (1 ≤ bgFps → 1 ≤ fgFps →
      getVideoInfo bgFps bgW bgH bgFrames fgFps fgW fgH fgFrames = .ok
        { bgFps := bgFps, bgWidth := bgW, bgHeight := bgH, bgFrames := bgFrames
          bgDuration := (bgFrames : ℚ) / bgFps
          fgFps := fgFps, fgWidth := fgW, fgHeight := fgH, fgFrames := fgFrames
          fgDuration := (fgFrames : ℚ) / fgFps }) := by
  constructor
  · constructor
    · intro h
      by_contra hc
      push_neg at hc
      simp [getVideoInfo, hc.1, hc.2] at h
    · intro h
      rcases h with h | h
      · simp [getVideoInfo, h]
      · by_cases hb : bgFps = 0
        · simp [getVideoInfo, hb]
        · simp [getVideoInfo, hb, h]
  · intro hb hf
    have hb0 : bgFps ≠ 0 := by omega
    have hf0 : fgFps ≠ 0 := by omega
    simp [getVideoInfo, hb0, hf0]

/-- C10 witness: the probe theorem evaluated at a zero background fps (error
case) and at 30 and 25 fps (well-defined case). -/
theorem C10_probe_requires_positive_fps_witness :
    (getVideoInfo 0 1920 1080 500 25 1280 720 125 =
        .error "ZeroDivisionError" ↔ (0 : ℕ) = 0 ∨ (25 : ℕ) = 0) ∧
    (1 ≤ 30 → 1 ≤ 25 →
      getVideoInfo 30 1920 1080 600 25 1280 720 125 = .ok
        { bgFps := 30, bgWidth := 1920, bgHeight := 1080, bgFrames := 600
          bgDuration := (600 : ℚ) / 30
          fgFps := 25, fgWidth := 1280, fgHeight := 720, fgFrames := 125
          fgDuration := (125 : ℚ) / 25 }) :=
  ⟨(C10_probe_requires_positive_fps 0 1920 1080 500 25 1280 720 125).1,
   (C10_probe_requires_positive_fps 30 1920 1080 600 25 1280 720 125).2⟩

/-! ## Parameter validation and per-frame mask blur (chromakey_service.py)

ChromakeyService validate params checks only that both input paths exist, that
scale is positive and that opacity lies in the unit interval; the blur kernel
field is never inspected. The per-frame loop applies
cv2.GaussianBlur(mask, (k, k), 0) whenever blur_kernel is positive, and
GaussianBlur rejects a positive even kernel size at call time (its documented
precondition is an odd positive ksize), so an even kernel surfaces as a
per-frame failure. The numeric content of the blur is performed by the external
library and is not needed by any claim; only its acceptance of the kernel is
modelled. -/

structure CKParams where
  foregroundExists : Bool
  backgroundExists : Bool
  startTime : ℚ
  duration : Option ℚ
  blurKernel : ℤ
  audioMode : String
  scale : ℚ
  opacity : ℚ
deriving DecidableEq, Repr

/-- ChromakeyService validate params, checks in source order; note the blur
kernel is not examined. -/
def validateParams (p : CKParams) : Except String Unit :=
if p.foregroundExists = false then .error "Foreground video non trovato"
else if p.backgroundExists = false then .error "Background video non trovato"
else if p.scale ≤ 0 then .error "Scale deve essere maggiore di 0"
else if ¬ (0 ≤ p.opacity ∧ p.opacity ≤ 1) then .error "Opacity deve essere tra 0.0 e 1.0"
else .ok ()

inductive BlurOutcome
  | unblurred
  | blurred (kernel : ℤ)
deriving DecidableEq, Repr

/-- Per-frame mask blur of the foreground preprocessing loop: applied only when
blur_kernel is positive, and the external Gaussian blur rejects a positive even
kernel size when the frame is processed. -/
def blurMaskStep (blurKernel : ℤ) : Except String BlurOutcome :=
if 0 < blurKernel then
  if blurKernel % 2 = 1 then .ok (.blurred blurKernel)
  else .error "cv2.error: GaussianBlur ksize must be odd"
else .ok .unblurred

/-- C8 counterexample: an even positive kernel size of 4 passes configuration
validation untouched, and then the very first per-frame blur observes the
invalid kernel and fails: the rejection claimed at configuration time does not
happen. -/
theorem C8_even_kernel_passes_validation :
    validateParams
      { foregroundExists := true, backgroundExists := true, startTime := 0,
        duration := none, blurKernel := 4, audioMode := "synced",
        scale := 1, opacity := 1 } = .ok () ∧
    blurMaskStep 4 = .error "cv2.error: GaussianBlur ksize must be odd" := by
  constructor
  · rfl
  · rfl

/-- C8 amended: the kernel size is not validated at configuration time at all;
validation is entirely independent of the blur kernel, a nonpositive kernel
silently disables the blur, and a positive even kernel is only rejected during
per-frame processing. -/
theorem C8_kernel_unvalidated (p : CKParams) (k : ℤ) :
    validateParams { p with blurKernel := k } = validateParams p ∧
    (k ≤ 0 → blurMaskStep k = .ok .unblurred) ∧
    (0 < k → k % 2 = 0 → blurMaskStep k =
      .error "cv2.error: GaussianBlur ksize must be odd") := by
  refine ⟨rfl, ?_, ?_⟩
  · intro hk
    simp [blurMaskStep, not_lt.mpr hk]
  · intro hk he
    simp only [blurMaskStep, if_pos hk]
    rw [if_neg (by omega)]

/-- C8 witness: the amended theorem evaluated at kernel size 6. -/
theorem C8_kernel_unvalidated_witness :
    validateParams
      { foregroundExists := true, backgroundExists := true, startTime := 0,
        duration := none, blurKernel := 6, audioMode := "synced",
        scale := 1, opacity := 1 } =
      validateParams
        { foregroundExists := true, backgroundExists := true, startTime := 0,
          duration := none, blurKernel := 5, audioMode := "synced",
          scale := 1, opacity := 1 } ∧
    ((6 : ℤ) ≤ 0 → blurMaskStep 6 = .ok .unblurred) ∧
    ((0 : ℤ) < 6 → (6 : ℤ) % 2 = 0 → blurMaskStep 6 =
      .error "cv2.error: GaussianBlur ksize must be odd") :=
  C8_kernel_unvalidated
    { foregroundExists := true, backgroundExists := true, startTime := 0,
      duration := none, blurKernel := 5, audioMode := "synced",
      scale := 1, opacity := 1 } 6

/-! ## Two-stream audio assembly and the video-only fallback

Two implementations coexist. The legacy
backup_refactoring_20251105_124826/chromakey.py renders the composited video
directly at the output path, renames it to a temp path, asks ffmpeg to mux the
selected audio back into the output path, and on an ffmpeg error renames the
temp video-only render back to the output path and reports success. The current
ChromakeyService instead renders to an anonymous temp file, runs its add audio
step which only reports False on an ffmpeg error, always unlinks the temp
render, and raises when the step failed, so no output is produced. -/

inductive RenderContent
  | videoOnly
  | muxedWithAudio
deriving DecidableEq, Repr

/-- Filesystem view of the two paths that matter to the two-stream pipelines:
what the temp render file and the declared output file currently hold. -/
structure TwoStreamFs where
  tempContent : Option RenderContent
  outputContent : Option RenderContent
deriving DecidableEq, Repr

/-- ChromakeyService add audio with ffmpeg: on success writes the output file
(video-only copy for mode none, a mux otherwise), on a CalledProcessError just
returns False with the output unwritten. -/
def serviceAddAudio (audioMode : String) (ffmpegOk : Bool) (fs : TwoStreamFs) :
    Bool × TwoStreamFs :=
let written : RenderContent := if audioMode = "none" then .videoOnly else .muxedWithAudio
if ffmpegOk then (true, { fs with outputContent := some written })
else (false, fs)

/-- ChromakeyService composite video, audio tail: the freshly rendered
video-only temp file feeds the add audio step, the temp file is unlinked
unconditionally afterwards, and the boolean from the audio step is returned as
the compositing result. -/
def serviceCompositeVideo (audioMode : String) (ffmpegOk : Bool) : Bool × TwoStreamFs :=
let fs0 : TwoStreamFs := { tempContent := some .videoOnly, outputContent := none }
let r := serviceAddAudio audioMode ffmpegOk fs0
(r.1, { r.2 with tempContent := none })

/-- ChromakeyService process: a False from composite video is turned into a
raised RuntimeError, discarding the job. -/
def serviceProcess (audioMode : String) (ffmpegOk : Bool) : Except String TwoStreamFs :=
let r := serviceCompositeVideo audioMode ffmpegOk
if r.1 then .ok r.2 else .error "Compositing video fallito"

/-- Legacy backup chromakey audio section: the output path initially holds the
video-only render; mode none returns it directly; otherwise the render is
renamed to a temp path and ffmpeg muxes audio into the output path, the temp
copy being removed on success and renamed back to the output path on an ffmpeg
error, reporting success either way. -/
def backupAudioSection (audioSource : String) (ffmpegOk : Bool) : Bool × TwoStreamFs :=
if audioSource = "none" then
  (true, { tempContent := none, outputContent := some .videoOnly })
else if ffmpegOk then
  (true, { tempContent := none, outputContent := some .muxedWithAudio })
else
  (true, { tempContent := none, outputContent := some .videoOnly })

/-- C6 counterexample: in the current two-stream service a failed audio step
makes the whole operation raise instead of succeeding, and the already-rendered
video-only result has been unlinked rather than emitted at the output path. -/
theorem C6_service_discards_video_only_render :
    serviceProcess "synced" false = .error "Compositing video fallito" ∧
    (serviceCompositeVideo "synced" false).2.outputContent = none ∧
    (serviceCompositeVideo "synced" false).2.tempContent = none := by
  refine ⟨?_, ?_, ?_⟩ <;>
    simp [serviceProcess, serviceCompositeVideo, serviceAddAudio]

/-- C6 amended: only the legacy two-stream implementation recovers from a
failed audio-combining step; there the operation still reports success and the
output path holds the already-rendered video-only result, with the temp copy
removed. -/
theorem C6_backup_falls_back_to_video_only (audioSource : String) (ffmpegOk : Bool)
    (hmode : audioSource ≠ "none") (hfail : ffmpegOk = false) :
    backupAudioSection audioSource ffmpegOk =
      (true, { tempContent := none, outputContent := some .videoOnly }) := by
  simp [backupAudioSection, hmode, hfail]

/-- C6 witness: the legacy fallback theorem evaluated at audio source synced
with a failing ffmpeg invocation. -/
theorem C6_backup_falls_back_to_video_only_witness :
    backupAudioSection "synced" false =
      (true, { tempContent := none, outputContent := some .videoOnly }) :=
  C6_backup_falls_back_to_video_only "synced" false (by decide) rfl

/-! ## N-layer compositor (compositor_service.py, CompositorService)

A layer is a request dictionary; per build_filter_complex its fields are type,
path, posX, posY, scale (percent), opacity, chromakey flag with threshold and
tolerance, startTime, optional endTime and keepAspectRatio (default true;
callers of the model pass the resolved values). Probing a media path is the
external ffprobe call, modelled as a partial map from paths to stream info;
probing failure raises and is threaded as an error. -/

structure CLayer where
  ltype : String
  path : String
  posXv : ℚ
  posYv : ℚ
  scale : ℚ
  opacity : ℚ
  chromakeyOn : Bool
  threshold : ℚ
  tolerance : ℚ
  startTime : ℚ
  endTime : Option ℚ
  keepAspectRatio : Bool
deriving DecidableEq, Repr

structure MediaInfo where
  width : ℕ
  height : ℕ
  fps : ℚ
  duration : ℚ
deriving DecidableEq, Repr

/-- Visual layers are those the compositor filters into visual_layers. -/
def isVisual (l : CLayer) : Bool :=
l.ltype == "video" || l.ltype == "image"

/-- Audio layers filter of process_composition. -/
def isAudioLayer (l : CLayer) : Bool :=
l.ltype == "audio"

/-- Duration contribution of one visual layer in the process_composition
duration pass: its source is probed (failure raises), then endTime when given,
otherwise startTime plus the natural duration. -/
def layerTotalDuration (probe : String → Option MediaInfo) (l : CLayer) :
    Except String ℚ :=
match probe l.path with
| none => .error ("Errore get_video_info: " ++ l.path)
| some info =>
  match l.endTime with
  | none => .ok (l.startTime + info.duration)
  | some e => .ok e

/-- Duration pass of process_composition over the already-filtered visual
layers: a running maximum started at the main video duration, raising on the
first unprobeable source. -/
def computeMaxDuration (probe : String → Option MediaInfo) (maxDuration : ℚ) :
    List CLayer → Except String ℚ
  | [] => .ok maxDuration
  | l :: rest =>
    match layerTotalDuration probe l with
    | .error e => .error e
    | .ok t => computeMaxDuration probe (if maxDuration < t then t else maxDuration) rest

/-- Full duration computation of process_composition: only layers of type video
or image take part; audio layers are not consulted. -/
def processMaxDuration (probe : String → Option MediaInfo) (mainDuration : ℚ)
    (layers : List CLayer) : Except String ℚ :=
computeMaxDuration probe mainDuration (layers.filter isVisual)

/-- Required canvas duration exactly as claim C2 words it: the maximum of the
base natural duration and, over ALL layers of the composition, window end when
present, else window start plus the layer natural duration (supplied by
natDur). -/
def claimRequiredDuration (baseDuration : ℚ) (natDur : CLayer → ℚ)
    (layers : List CLayer) : ℚ :=
layers.foldl
  (fun acc l => max acc (match l.endTime with
    | some e => e
    | none => l.startTime + natDur l)) baseDuration

/-- One node of the declarative transform graph handed to the external engine. -/
inductive FilterStep
  | tpadClone (stopDuration : ℚ)
  | setptsDelay (delaySeconds : ℚ)
  | setptsToZero
  | scaleAspectDecrease (w h : ℤ)
  | scaleExact (w h : ℤ)
  | colorkeyGreen (similarity blend : ℚ)
  | opacityAlpha (a : ℚ)
deriving DecidableEq, Repr

/-- Base extension decision of build_filter_complex: when a target duration is
given, is truthy, and exceeds the main duration, the base stream is extended by
a tpad node whose stop mode clone repeats the last frame for the excess. -/
def basePad (mainDuration : ℚ) (targetDuration : Option ℚ) : Option FilterStep :=
match targetDuration with
| some t => if t ≠ 0 ∧ mainDuration < t then some (.tpadClone (t - mainDuration)) else none
| none => none

/-- Target dimensions of one layer in build_filter_complex: aspect preserving
layers probe their own source (failure raises) and derive their size from the
probed aspect ratio, width driven for landscape or square sources and height
driven for portrait ones; non-preserving layers take both dimensions from the
percentage of the main canvas and may deform. -/
def layerDims (mainW mainH : ℕ) (probe : String → Option MediaInfo)
    (l : CLayer) : Except String (ℤ × ℤ) :=
let scalePercent : ℚ := l.scale / 100
if l.keepAspectRatio then
  match probe l.path with
  | none => Except.error ("Errore get_video_info: " ++ l.path)
  | some info =>
    if info.height = 0 then Except.error "ZeroDivisionError"
    else
      let aspect : ℚ := (info.width : ℚ) / info.height
      if 1 ≤ aspect then
        let lw : ℤ := pyInt ((mainW : ℚ) * scalePercent)
        Except.ok (lw, pyInt ((lw : ℚ) / aspect))
      else
        let lh : ℤ := pyInt ((mainH : ℚ) * scalePercent)
        Except.ok (pyInt ((lh : ℚ) * aspect), lh)
else
  Except.ok (pyInt ((mainW : ℚ) * scalePercent), pyInt ((mainH : ℚ) * scalePercent))

/-- Per-layer filter chain of build_filter_complex, in source order: setpts
timing for video layers only (a positive startTime shifts the layer timestamps
by that many seconds, otherwise they are reset to start at zero), then the
scale step, then the optional green colorkey with the documented linear
threshold and tolerance maps, then the optional opacity alpha multiply. -/
def buildLayerChain (mainW mainH : ℕ) (probe : String → Option MediaInfo)
    (l : CLayer) : Except String (List FilterStep) :=
match layerDims mainW mainH probe l with
| .error e => .error e
| .ok dims =>
  let timing : List FilterStep :=
    if l.ltype = "video" then
      if 0 < l.startTime then [.setptsDelay l.startTime] else [.setptsToZero]
    else []
  let scaleStep : FilterStep :=
    if l.keepAspectRatio then .scaleAspectDecrease dims.1 dims.2
    else .scaleExact dims.1 dims.2
  let ck : List FilterStep :=
    if l.chromakeyOn then
      [.colorkeyGreen (1 / 100 + l.threshold / 150 * (3 / 10)) (l.tolerance / 20)]
    else []
  let op : List FilterStep :=
    if l.opacity < 1 then [.opacityAlpha l.opacity] else []
  Except.ok (timing ++ [scaleStep] ++ ck ++ op)

/-- Overlay node placed after a layer chain: integer position computed from the
canvas centre, and a visibility predicate hiding the layer past endTime when
one is given (startTime is not duplicated here). -/
structure OverlayNode where
  posX : ℤ
  posY : ℤ
  enableBefore : Option ℚ
deriving DecidableEq, Repr

structure LayerNode where
  chain : List FilterStep
  overlay : OverlayNode
deriving DecidableEq, Repr

/-- Width and height a chain scales to, read back from its scale step, used to
place the overlay exactly as the source does with layer_w and layer_h. -/
def chainDims : List FilterStep → ℤ × ℤ
  | [] => (0, 0)
  | .scaleAspectDecrease w h :: _ => (w, h)
  | .scaleExact w h :: _ => (w, h)
  | _ :: rest => chainDims rest

/-- One full layer node of build_filter_complex: the filter chain plus its
overlay position and visibility window end. -/
def buildLayerNode (mainW mainH : ℕ) (probe : String → Option MediaInfo)
    (l : CLayer) : Except String LayerNode :=
match buildLayerChain mainW mainH probe l with
| .error e => .error e
| .ok chain =>
  let dims := chainDims chain
  Except.ok
    { chain := chain
      overlay :=
        { posX := pyInt ((mainW : ℚ) / 2 + l.posXv - (dims.1 : ℚ) / 2)
          posY := pyInt ((mainH : ℚ) / 2 + l.posYv - (dims.2 : ℚ) / 2)
          enableBefore := l.endTime } }

/-- Declarative transform graph returned by build_filter_complex: the optional
base extension node plus the layer nodes threaded in declaration order; the
builder returns nothing at all when no filter parts were produced. -/
structure FilterGraph where
  basePadStep : Option FilterStep
  nodes : List LayerNode
deriving DecidableEq, Repr

/-- Layer loop of build_filter_complex: audio layers are skipped with a
continue, every other layer contributes one node in declaration order, and a
probing failure inside the loop raises before any later node is built. -/
def buildNodes (mainW mainH : ℕ) (probe : String → Option MediaInfo) :
    List CLayer → Except String (List LayerNode)
  | [] => .ok []
  | l :: rest =>
    if isAudioLayer l then buildNodes mainW mainH probe rest
    else
      match buildLayerNode mainW mainH probe l with
      | .error e => .error e
      | .ok n =>
        match buildNodes mainW mainH probe rest with
        | .error e => .error e
        | .ok ns => .ok (n :: ns)

/-- build_filter_complex over a layer list: the base extension decision plus
the layer loop; an empty part list yields no graph at all. -/
def buildFilterComplex (mainInfo : MediaInfo) (probe : String → Option MediaInfo)
    (layers : List CLayer) (targetDuration : Option ℚ) :
    Except String (Option FilterGraph) :=
let pad := basePad mainInfo.duration targetDuration
match buildNodes mainInfo.width mainInfo.height probe layers with
| .error e => .error e
| .ok nodes =>
  if pad = none ∧ nodes = [] then Except.ok none
  else Except.ok (some { basePadStep := pad, nodes := nodes })

/-- One input of the audio mix: either mapped directly or behind an adelay of
the given milliseconds. -/
inductive AudioInput
  | direct (inputIndex : ℕ)
  | delayed (inputIndex : ℕ) (delayMs : ℤ)
deriving DecidableEq, Repr

/-- Audio entries contributed by the visual layer list, threading the loop
index of the enumerate: video layers only, each delayed by int(startTime times
1000) milliseconds when its startTime is positive; input indices count every
visual layer, image slots included. -/
def videoAudioInputsFrom (i : ℕ) : List CLayer → List AudioInput
  | [] => []
  | l :: rest =>
    if l.ltype = "video" then
      (if 0 < l.startTime then AudioInput.delayed (i + 1) (pyInt (l.startTime * 1000))
       else AudioInput.direct (i + 1)) :: videoAudioInputsFrom (i + 1) rest
    else videoAudioInputsFrom (i + 1) rest

def videoAudioInputs (visual : List CLayer) : List AudioInput :=
videoAudioInputsFrom 0 visual

/-- Audio entries contributed by the standalone audio files, indexed after all
visual inputs, with the same positive-start adelay rule. -/
def audioFileInputsFrom (numVisual i : ℕ) : List CLayer → List AudioInput
  | [] => []
  | l :: rest =>
    (if 0 < l.startTime then AudioInput.delayed (numVisual + i + 1) (pyInt (l.startTime * 1000))
     else AudioInput.direct (numVisual + i + 1)) :: audioFileInputsFrom numVisual (i + 1) rest

def audioFileInputs (numVisual : ℕ) (audioLayers : List CLayer) : List AudioInput :=
audioFileInputsFrom numVisual 0 audioLayers

/-- Audio directive of process_composition: either the pass-through map of the
optional base audio (input 0 with the question mark, so a silent base is not an
error), or one amix node over the base audio plus every contributed entry,
with the longest duration policy. -/
inductive AudioPlan
  | passThroughOptionalBase
  | mix (inputs : List AudioInput)
deriving DecidableEq, Repr

/-- Audio assembly of process_composition: no contributed entries means no mix
node and the optional base mapping; otherwise the base audio is inserted first
and everything is mixed with duration longest. -/
def buildAudioPlan (visual audioLayers : List CLayer) : AudioPlan :=
let inputs := videoAudioInputs visual ++ audioFileInputs visual.length audioLayers
if inputs = [] then .passThroughOptionalBase
else .mix (.direct 0 :: inputs)

/-- Audio plan for a raw request layer list, after the two filters of
process_composition. -/
def processAudioPlan (layers : List CLayer) : AudioPlan :=
buildAudioPlan (layers.filter isVisual) (layers.filter isAudioLayer)

/-- End time a mixed input contributes under the longest policy: its track
duration, shifted by its adelay offset when it has one. -/
def inputEndTime (trackDur : ℕ → ℚ) : AudioInput → ℚ
  | .direct i => trackDur i
  | .delayed i d => (d : ℚ) / 1000 + trackDur i

/-- Duration semantics of the emitted audio directive: a pass-through keeps the
base track duration, and an amix with duration longest lasts until the last
contributing track ends, adelay offsets included. -/
def planDuration (trackDur : ℕ → ℚ) : AudioPlan → ℚ
  | .passThroughOptionalBase => trackDur 0
  | .mix inputs => (inputs.map (inputEndTime trackDur)).foldl max 0

/-- Layers the claim calls audio-bearing: the kinds whose audio the mix
consumes, video and audio (image layers contribute no sound). -/
def audioBearing (layers : List CLayer) : List CLayer :=
layers.filter (fun l => l.ltype == "video" || l.ltype == "audio")

/-- Delay in milliseconds an audio input is scheduled behind. -/
def delayOf : AudioInput → ℤ
  | .direct _ => 0
  | .delayed _ d => d

/-- Delays claim C3 prescribes: one entry per audio-bearing layer, each delayed
by its own window start converted to milliseconds. -/
def claimDelays (layers : List CLayer) : List ℤ :=
(audioBearing layers).map (fun l =>
  if 0 < l.startTime then pyInt (l.startTime * 1000) else 0)

/-- Plan assembly phase of process_composition, everything that happens before
the external process is spawned: filter the layers, run the duration pass
(probing every visual source), build the transform graph against the padded
duration, and attach the audio directive. An error anywhere yields no command
at all, so nothing partial can be submitted. -/
structure CompositionCmd where
  maxDuration : ℚ
  graph : Option FilterGraph
  audioPlan : AudioPlan
deriving DecidableEq, Repr

def processCompositionPlan (probe : String → Option MediaInfo)
    (mainInfo : MediaInfo) (layers : List CLayer) : Except String CompositionCmd :=
let visual := layers.filter isVisual
let audioL := layers.filter isAudioLayer
match computeMaxDuration probe mainInfo.duration visual with
| .error e => .error e
| .ok maxDur =>
  match buildFilterComplex mainInfo probe visual (some maxDur) with
  | .error e => .error e
  | .ok graph =>
    Except.ok
      { maxDuration := maxDur, graph := graph
        audioPlan := buildAudioPlan visual audioL }

theorem claimRequiredDuration_cons (d : ℚ) (natDur : CLayer → ℚ) (l : CLayer)
    (ls : List CLayer) :
    claimRequiredDuration d natDur (l :: ls) =
      claimRequiredDuration
        (max d (match l.endTime with | some e => e | none => l.startTime + natDur l))
        natDur ls := rfl

theorem le_claimRequiredDuration (natDur : CLayer → ℚ) (ls : List CLayer) :
    ∀ d : ℚ, d ≤ claimRequiredDuration d natDur ls := by
  induction ls with
  | nil => intro d; exact le_refl d
  | cons l rest ih =>
    intro d
    rw [claimRequiredDuration_cons]
    exact le_trans (le_max_left _ _) (ih _)

theorem computeMaxDuration_eq_claim (probe : String → Option MediaInfo)
    (natDur : CLayer → ℚ) (ls : List CLayer) :
    ∀ d : ℚ,
      (∀ l ∈ ls, ∃ i, probe l.path = some i ∧ i.duration = natDur l) →
      computeMaxDuration probe d ls = .ok (claimRequiredDuration d natDur ls) := by
  induction ls with
  | nil => intro d _; rfl
  | cons l rest ih =>
    intro d h
    obtain ⟨i, hi, hdur⟩ := h l (List.mem_cons_self l rest)
    have hrest : ∀ x ∈ rest, ∃ j, probe x.path = some j ∧ j.duration = natDur x :=
      fun x hx => h x (List.mem_cons_of_mem _ hx)
    rw [claimRequiredDuration_cons]
    cases he : l.endTime with
    | none =>
      simp only [computeMaxDuration, layerTotalDuration, hi, he, hdur,
        ite_lt_eq_max]
      exact ih _ hrest
    | some e =>
      simp only [computeMaxDuration, layerTotalDuration, hi, he,
        ite_lt_eq_max]
      exact ih _ hrest

theorem computeMaxDuration_error_of_unprobeable (probe : String → Option MediaInfo)
    (ls : List CLayer) :
    ∀ (d : ℚ) (l : CLayer), l ∈ ls → probe l.path = none →
      ∃ msg, computeMaxDuration probe d ls = .error msg := by
  induction ls with
  | nil => intro d l hl; cases hl
  | cons x rest ih =>
    intro d l hl hp
    rcases List.mem_cons.mp hl with h | h
    · subst h
      exact ⟨"Errore get_video_info: " ++ l.path,
        by simp [computeMaxDuration, layerTotalDuration, hp]⟩
    · cases hx : layerTotalDuration probe x with
      | error e => exact ⟨e, by simp [computeMaxDuration, hx]⟩
      | ok t =>
        obtain ⟨msg, hmsg⟩ := ih (if d < t then t else d) l h hp
        exact ⟨msg, by simp [computeMaxDuration, hx, hmsg]⟩

def audioLayer100 : CLayer :=
  { ltype := "audio", path := "voice.mp3", posXv := 0, posYv := 0, scale := 100,
    opacity := 1, chromakeyOn := false, threshold := 110, tolerance := 2,
    startTime := 100, endTime := none, keepAspectRatio := true }

def probeVoice : String → Option MediaInfo :=
fun p => if p = "voice.mp3" then
  some { width := 0, height := 0, fps := 0, duration := 5 } else none

/-- C2 counterexample: against a 10 second base, a lone audio layer whose
window starts at second 100 with a 5 second natural duration is ignored by the
duration pass, which keeps 10, while the claimed maximum over every layer is
105: the required canvas duration does not equal the claimed formula. -/
theorem C2_audio_layer_ignored_in_duration :
    processMaxDuration probeVoice 10 [audioLayer100] = .ok 10 ∧
    claimRequiredDuration 10 (fun _ => 5) [audioLayer100] = 105 := by
  constructor
  · rfl
  · show max 10 (100 + 5) = 105
    norm_num

/-- C2 amended: only video and image layers enter the canvas duration; with
every visual source probeable the computed duration is the maximum of the base
natural duration and, over the VISUAL layers, window end when present else
window start plus natural duration, and the base is extended exactly when that
maximum exceeds it, by a clone tpad (last-frame freeze) of precisely the
excess, never a loop or a truncation. -/
theorem C2_visual_duration_and_freeze_pad (probe : String → Option MediaInfo)
    (mainInfo : MediaInfo) (layers : List CLayer) (natDur : CLayer → ℚ)
    (hd : 0 ≤ mainInfo.duration)
    (hp : ∀ l ∈ layers, isVisual l = true →
      ∃ i, probe l.path = some i ∧ i.duration = natDur l) :
    processMaxDuration probe mainInfo.duration layers =
      .ok (claimRequiredDuration mainInfo.duration natDur (layers.filter isVisual)) ∧
    (mainInfo.duration <
        claimRequiredDuration mainInfo.duration natDur (layers.filter isVisual) →
      basePad mainInfo.duration
          (some (claimRequiredDuration mainInfo.duration natDur (layers.filter isVisual))) =
        some (.tpadClone (claimRequiredDuration mainInfo.duration natDur
          (layers.filter isVisual) - mainInfo.duration))) ∧
    (claimRequiredDuration mainInfo.duration natDur (layers.filter isVisual) ≤
        mainInfo.duration →
      basePad mainInfo.duration
          (some (claimRequiredDuration mainInfo.duration natDur
            (layers.filter isVisual))) = none) := by
  refine ⟨?_, ?_, ?_⟩
  · apply computeMaxDuration_eq_claim
    intro l hl
    exact hp l (List.mem_filter.mp hl).1 (List.mem_filter.mp hl).2
  · intro hlt
    have hne : claimRequiredDuration mainInfo.duration natDur (layers.filter isVisual) ≠ 0 :=
      ne_of_gt (lt_of_le_of_lt hd hlt)
    simp only [basePad]
    rw [if_pos (And.intro hne hlt)]
  · intro hle
    simp only [basePad]
    rw [if_neg]
    intro hcontra
    exact absurd hcontra.2 (not_lt.mpr hle)

def imageLayerTwoEight : CLayer :=
  { ltype := "image", path := "logo.png", posXv := 100, posYv := -50, scale := 30,
    opacity := 1, chromakeyOn := false, threshold := 110, tolerance := 2,
    startTime := 2, endTime := some 8, keepAspectRatio := false }

/-- C2 witness: the amended duration theorem evaluated on a 10 second base and
one image layer visible in the window from 2 to 8 seconds, where the canvas
duration stays 10 and no padding node is emitted. -/
theorem C2_visual_duration_and_freeze_pad_witness :
    processMaxDuration (fun p => if p = "logo.png" then
        some { width := 800, height := 600, fps := 30, duration := 3 } else none)
      (10 : ℚ) [imageLayerTwoEight] =
      .ok (claimRequiredDuration 10 (fun _ => 3) [imageLayerTwoEight]) ∧
    ((10 : ℚ) < claimRequiredDuration 10 (fun _ => 3) [imageLayerTwoEight] →
      basePad 10 (some (claimRequiredDuration 10 (fun _ => 3) [imageLayerTwoEight])) =
        some (.tpadClone (claimRequiredDuration 10 (fun _ => 3) [imageLayerTwoEight] - 10))) ∧
    (claimRequiredDuration 10 (fun _ => 3) [imageLayerTwoEight] ≤ 10 →
      basePad 10 (some (claimRequiredDuration 10 (fun _ => 3) [imageLayerTwoEight])) =
        none) := by
  have h := C2_visual_duration_and_freeze_pad
    (fun p => if p = "logo.png" then
      some { width := 800, height := 600, fps := 30, duration := 3 } else none)
    { width := 1920, height := 1080, fps := 25, duration := 10 }
    [imageLayerTwoEight] (fun _ => 3) (by norm_num)
    (by
      intro l hl hv
      have : l = imageLayerTwoEight := List.mem_singleton.mp hl
      subst this
      exact ⟨{ width := 800, height := 600, fps := 30, duration := 3 }, rfl, rfl⟩)
  exact h

def textLayer : CLayer :=
  { ltype := "text", path := "subtitles.srt", posXv := 0, posYv := 0, scale := 100,
    opacity := 1, chromakeyOn := false, threshold := 110, tolerance := 2,
    startTime := 0, endTime := none, keepAspectRatio := true }

def mainInfo720 : MediaInfo :=
  { width := 1280, height := 720, fps := 30, duration := 10 }

/-- C7 counterexample: a layer of unknown kind text, whose source is not even
probeable, does not fail plan construction: it is silently dropped by the two
kind filters and the plan is assembled and returned for execution without it. -/
theorem C7_unknown_kind_not_rejected :
    processCompositionPlan (fun _ => none) mainInfo720 [textLayer] =
      .ok { maxDuration := 10, graph := none, audioPlan := .passThroughOptionalBase } := by
  rfl

/-- C7 amended: a video or image layer whose source cannot be probed still
fails the whole plan before any graph is assembled (the error result carries no
command, so no partial graph is ever submitted), but a layer of unknown kind is
silently excluded from the composition instead of failing the request. -/
theorem C7_unprobeable_visual_source_fails (probe : String → Option MediaInfo)
    (mainInfo : MediaInfo) (layers : List CLayer) (l : CLayer)
    (hl : l ∈ layers) (hv : isVisual l = true) (hp : probe l.path = none) :
    ∃ msg, processCompositionPlan probe mainInfo layers = .error msg := by
  have hlf : l ∈ layers.filter isVisual := List.mem_filter.mpr ⟨hl, hv⟩
  obtain ⟨msg, hmsg⟩ :=
    computeMaxDuration_error_of_unprobeable probe (layers.filter isVisual)
      mainInfo.duration l hlf hp
  exact ⟨msg, by simp [processCompositionPlan, hmsg]⟩

def videoLayerMissing : CLayer :=
  { ltype := "video", path := "missing.mp4", posXv := 0, posYv := 0, scale := 50,
    opacity := 1, chromakeyOn := false, threshold := 110, tolerance := 2,
    startTime := 0, endTime := none, keepAspectRatio := true }

/-- C7 witness: the amended theorem evaluated on one unprobeable video layer. -/
theorem C7_unprobeable_visual_source_fails_witness :
    ∃ msg, processCompositionPlan (fun _ => none) mainInfo720 [videoLayerMissing] =
      .error msg :=
  C7_unprobeable_visual_source_fails (fun _ => none) mainInfo720 [videoLayerMissing]
    videoLayerMissing (List.mem_singleton.mpr rfl) rfl rfl

def imageLayerFive : CLayer :=
  { ltype := "image", path := "logo.png", posXv := 0, posYv := 0, scale := 30,
    opacity := 1, chromakeyOn := false, threshold := 110, tolerance := 2,
    startTime := 5, endTime := none, keepAspectRatio := false }

/-- Steps that move a layer in time by rewriting its timestamps. -/
def isTimestampShift : FilterStep → Bool
  | .setptsDelay _ => true
  | .setptsToZero => true
  | _ => false

/-- C5 counterexample: an image layer with window start 5 receives no timestamp
shift at all: its emitted chain is just the scale step, so the transform graph
does not make it appear at time 5 by shifting its timestamps. -/
theorem C5_image_layer_not_shifted :
    buildLayerChain 1920 1080 (fun _ => none) imageLayerFive =
      .ok [.scaleExact 576 324] ∧
    ([FilterStep.scaleExact 576 324].all (fun s => ! isTimestampShift s)) = true := by
  constructor
  · simp [buildLayerChain, layerDims, imageLayerFive]
    norm_num [pyInt]
  · rfl

/-- C5 amended: for every VIDEO layer the emitted chain starts with the
timestamp directive: a positive window start s shifts the layer timestamps by
s seconds (setpts PTS plus s over TB, so the decoder delays the layer without
black frames), and a start of zero resets the timestamps to begin at zero. -/
theorem C5_video_layer_setpts (mainW mainH : ℕ) (probe : String → Option MediaInfo)
    (l : CLayer) (chain : List FilterStep)
    (hv : l.ltype = "video")
    (hok : buildLayerChain mainW mainH probe l = .ok chain) :
    (0 < l.startTime → chain.head? = some (.setptsDelay l.startTime)) ∧
    (l.startTime ≤ 0 → chain.head? = some .setptsToZero) := by
  cases hd : layerDims mainW mainH probe l with
  | error e =>
    rw [buildLayerChain, hd] at hok
    exact absurd hok (by simp)
  | ok dims =>
    rw [buildLayerChain, hd] at hok
    simp only [hv, if_true, if_pos rfl] at hok
    constructor
    · intro hs
      rw [if_pos hs] at hok
      have := hok
      simp only [Except.ok.injEq] at this
      rw [← this]
      rfl
    · intro hs
      rw [if_neg (not_lt.mpr hs)] at hok
      have := hok
      simp only [Except.ok.injEq] at this
      rw [← this]
      rfl

def videoLayerThree : CLayer :=
  { ltype := "video", path := "overlay.mp4", posXv := 0, posYv := 0, scale := 40,
    opacity := 1, chromakeyOn := false, threshold := 110, tolerance := 2,
    startTime := 3, endTime := none, keepAspectRatio := false }

/-- C5 witness: the amended setpts theorem evaluated on a video layer with
window start 3. -/
theorem C5_video_layer_setpts_witness :
    ((0 : ℚ) < videoLayerThree.startTime →
      List.head? [FilterStep.setptsDelay 3, .scaleExact 768 432] =
        some (.setptsDelay videoLayerThree.startTime)) ∧
    (videoLayerThree.startTime ≤ 0 →
      List.head? [FilterStep.setptsDelay 3, .scaleExact 768 432] =
        some .setptsToZero) :=
  C5_video_layer_setpts 1920 1080 (fun _ => none) videoLayerThree
    [FilterStep.setptsDelay 3, .scaleExact 768 432] rfl
    (by
      simp [buildLayerChain, layerDims, videoLayerThree]
      norm_num [pyInt])

/-- Delay in milliseconds a layer contributes to the audio mix. -/
def layerDelayMs (l : CLayer) : ℤ :=
if 0 < l.startTime then pyInt (l.startTime * 1000) else 0

theorem videoAudioInputsFrom_delays (vs : List CLayer) :
    ∀ i, (videoAudioInputsFrom i vs).map delayOf =
      (vs.filter (fun l => l.ltype == "video")).map layerDelayMs := by
  induction vs with
  | nil => intro i; rfl
  | cons l rest ih =>
    intro i
    by_cases hv : l.ltype = "video"
    · rw [videoAudioInputsFrom, if_pos hv, List.filter_cons_of_pos (by simp [hv])]
      simp only [List.map_cons]
      by_cases hs : 0 < l.startTime
      · simp only [if_pos hs, delayOf, layerDelayMs, ih (i + 1)]
      · simp only [if_neg hs, delayOf, layerDelayMs, ih (i + 1)]
    · rw [videoAudioInputsFrom, if_neg hv, List.filter_cons_of_neg (by simp [hv])]
      exact ih (i + 1)

theorem audioFileInputsFrom_delays (as : List CLayer) :
    ∀ n i, (audioFileInputsFrom n i as).map delayOf = as.map layerDelayMs := by
  induction as with
  | nil => intro n i; rfl
  | cons l rest ih =>
    intro n i
    rw [audioFileInputsFrom]
    simp only [List.map_cons]
    by_cases hs : 0 < l.startTime
    · simp only [if_pos hs, delayOf, layerDelayMs, ih n (i + 1)]
    · simp only [if_neg hs, delayOf, layerDelayMs, ih n (i + 1)]

theorem audioBearing_perm_split (layers : List CLayer) :
    List.Perm (audioBearing layers)
      (layers.filter (fun l => l.ltype == "video") ++ layers.filter isAudioLayer) := by
  induction layers with
  | nil => exact List.Perm.refl _
  | cons l rest ih =>
    by_cases hv : l.ltype = "video"
    · have ha : ¬ l.ltype = "audio" := by rw [hv]; decide
      rw [audioBearing, List.filter_cons_of_pos (by simp [hv]),
        List.filter_cons_of_pos (by simp [hv]),
        List.filter_cons_of_neg (by simp [isAudioLayer, ha])]
      exact (ih).cons l
    · by_cases ha : l.ltype = "audio"
      · rw [audioBearing, List.filter_cons_of_pos (by simp [ha]),
          List.filter_cons_of_neg (by simp [hv]),
          List.filter_cons_of_pos (by simp [isAudioLayer, ha])]
        exact (ih.cons l).trans List.perm_middle.symm
      · rw [audioBearing, List.filter_cons_of_neg (by simp [hv, ha]),
          List.filter_cons_of_neg (by simp [hv]),
          List.filter_cons_of_neg (by simp [isAudioLayer, ha])]
        exact ih

theorem filter_video_of_visual (layers : List CLayer) :
    (layers.filter isVisual).filter (fun l => l.ltype == "video") =
      layers.filter (fun l => l.ltype == "video") := by
  rw [List.filter_filter]
  apply List.filter_congr
  intro a _
  by_cases h : a.ltype = "video" <;> simp [isVisual, h]

/-- Milliseconds of delay carried by the emitted audio inputs, in emission
order: the mix entries are exactly one per audio-bearing layer, delayed by that
layer's own window start. -/
theorem processAudioInputs_delays_perm (layers : List CLayer) :
    List.Perm
      ((videoAudioInputs (layers.filter isVisual) ++
        audioFileInputs (layers.filter isVisual).length
          (layers.filter isAudioLayer)).map delayOf)
      (claimDelays layers) := by
  rw [List.map_append, videoAudioInputs, audioFileInputs,
    videoAudioInputsFrom_delays, audioFileInputsFrom_delays,
    filter_video_of_visual, claimDelays, ← List.map_append]
  exact ((audioBearing_perm_split layers).map layerDelayMs).symm

theorem foldl_max_init_le (xs : List ℚ) : ∀ a : ℚ, a ≤ xs.foldl max a := by
  induction xs with
  | nil => intro a; exact le_refl a
  | cons x rest ih => intro a; exact le_trans (le_max_left a x) (ih (max a x))

theorem foldl_max_le_of_mem (xs : List ℚ) :
    ∀ (a x : ℚ), x ∈ xs → x ≤ xs.foldl max a := by
  induction xs with
  | nil => intro a x hx; cases hx
  | cons y rest ih =>
    intro a x hx
    rcases List.mem_cons.mp hx with h | h
    · subst h
      exact le_trans (le_max_right a x) (foldl_max_init_le rest _)
    · exact ih _ x h

theorem foldl_max_mem_cons (xs : List ℚ) : ∀ a : ℚ, xs.foldl max a ∈ a :: xs := by
  induction xs with
  | nil => intro a; simp
  | cons y rest ih =>
    intro a
    rcases List.mem_cons.mp (ih (max a y)) with h | h
    · rcases max_choice a y with hm | hm
      · rw [List.foldl_cons, h, hm]
        exact List.mem_cons_self _ _
      · rw [List.foldl_cons, h, hm]
        exact List.mem_cons_of_mem _ (List.mem_cons_self _ _)
    · rw [List.foldl_cons]
      exact List.mem_cons_of_mem _ (List.mem_cons_of_mem _ h)

/-- C3: the N-layer audio assembly. With zero audio-bearing layers (no video
and no audio kinds) no mix node is emitted and the plan is the optional
pass-through of the base audio, which is silence rather than an error when the
base track is absent. With at least one audio-bearing layer the plan is one
amix node over the base plus one entry per audio-bearing layer, each entry
delayed by its own window start in milliseconds, and under the longest policy
the plan duration bounds every contributing track including its delay offset
and is attained by one of them. -/
theorem C3_audio_mix_plan (layers : List CLayer) (trackDur : ℕ → ℚ)
    (hbase : 0 ≤ trackDur 0) :
    (audioBearing layers = [] →
      processAudioPlan layers = .passThroughOptionalBase ∧
      planDuration trackDur (processAudioPlan layers) = trackDur 0) ∧
    (audioBearing layers ≠ [] →
      ∃ ins, processAudioPlan layers = .mix (.direct 0 :: ins) ∧
        List.Perm (ins.map delayOf) (claimDelays layers) ∧
        (∀ a ∈ AudioInput.direct 0 :: ins,
          inputEndTime trackDur a ≤ planDuration trackDur (.mix (.direct 0 :: ins))) ∧
        (∃ a ∈ AudioInput.direct 0 :: ins,
          planDuration trackDur (.mix (.direct 0 :: ins)) =
            inputEndTime trackDur a)) := by
  have hperm := processAudioInputs_delays_perm layers
  constructor
  · intro hempty
    have hcd : claimDelays layers = [] := by
      rw [claimDelays, hempty]
      rfl
    have hnil : (videoAudioInputs (layers.filter isVisual) ++
        audioFileInputs (layers.filter isVisual).length
          (layers.filter isAudioLayer)) = [] := by
      rw [hcd] at hperm
      exact List.map_eq_nil_iff.mp (List.Perm.eq_nil hperm)
    constructor
    · simp only [processAudioPlan, buildAudioPlan, hnil]
      simp
    · simp only [processAudioPlan, buildAudioPlan, hnil]
      simp [planDuration]
  · intro hne
    have hcd : claimDelays layers ≠ [] := by
      rw [claimDelays]
      intro h
      exact hne (List.map_eq_nil_iff.mp h)
    set inputs := videoAudioInputs (layers.filter isVisual) ++
      audioFileInputs (layers.filter isVisual).length (layers.filter isAudioLayer) with hin
    have hinne : inputs ≠ [] := by
      intro h
      rw [h] at hperm
      simp only [List.map_nil] at hperm
      exact hcd hperm.symm.eq_nil
    refine ⟨inputs, ?_, hperm, ?_, ?_⟩
    · simp only [processAudioPlan, buildAudioPlan]
      rw [← hin, if_neg hinne]
    · intro a ha
      simp only [planDuration]
      exact foldl_max_le_of_mem _ 0 _ (List.mem_map_of_mem _ ha)
    · rcases List.mem_cons.mp
        (foldl_max_mem_cons ((AudioInput.direct 0 :: inputs).map (inputEndTime trackDur)) 0)
        with h | h
      · refine ⟨.direct 0, List.mem_cons_self _ _, ?_⟩
        have hb : inputEndTime trackDur (.direct 0) ≤
            ((AudioInput.direct 0 :: inputs).map (inputEndTime trackDur)).foldl max 0 :=
          foldl_max_le_of_mem _ 0 _
            (List.mem_map_of_mem _ (List.mem_cons_self _ _))
        rw [h] at hb
        have hz : inputEndTime trackDur (.direct 0) = 0 :=
          le_antisymm hb (by simpa [inputEndTime] using hbase)
        simp only [planDuration]
        rw [h, hz]
      · obtain ⟨a, ha, hav⟩ := List.mem_map.mp h
        refine ⟨a, ha, ?_⟩
        simp only [planDuration]
        exact hav.symm

def audioLayerTen : CLayer :=
  { ltype := "audio", path := "music.mp3", posXv := 0, posYv := 0, scale := 100,
    opacity := 1, chromakeyOn := false, threshold := 110, tolerance := 2,
    startTime := 10, endTime := none, keepAspectRatio := true }

/-- C3 witness: the audio plan theorem evaluated on one audio layer starting at
second 10, with track durations base 7 and layer 5. -/
theorem C3_audio_mix_plan_witness :
    (audioBearing [audioLayerTen] = [] →
      processAudioPlan [audioLayerTen] = .passThroughOptionalBase ∧
      planDuration (fun i => if i = 0 then 7 else 5) (processAudioPlan [audioLayerTen]) =
        (fun i : ℕ => if i = 0 then (7 : ℚ) else 5) 0) ∧
    (audioBearing [audioLayerTen] ≠ [] →
      ∃ ins, processAudioPlan [audioLayerTen] = .mix (.direct 0 :: ins) ∧
        List.Perm (ins.map delayOf) (claimDelays [audioLayerTen]) ∧
        (∀ a ∈ AudioInput.direct 0 :: ins,
          inputEndTime (fun i => if i = 0 then 7 else 5) a ≤
            planDuration (fun i => if i = 0 then 7 else 5) (.mix (.direct 0 :: ins))) ∧
        (∃ a ∈ AudioInput.direct 0 :: ins,
          planDuration (fun i => if i = 0 then 7 else 5) (.mix (.direct 0 :: ins)) =
            inputEndTime (fun i => if i = 0 then 7 else 5) a)) :=
  C3_audio_mix_plan [audioLayerTen] (fun i => if i = 0 then 7 else 5) (by norm_num)

/-! ## Compositor job lifecycle (api/routes/compositor.py)

A CompositorJob carries status pending, processing, completed or failed
(cancellation reuses failed). The background task process_compositor_job wraps
process_composition: any raised error, including the nonzero-exit branch of
process_composition, which raises WITHOUT deleting the partial output file, is
caught and only mutates the job fields. The delete route, for a processing job,
kills the external processes, removes the declared output file when the job has
one recorded, removes every recent compositor output file from the output
directory, and marks the job failed. -/

/-- One file on disk: its path, whether it matches the output glob
compositor_*.mp4 of the cleanup pass, and whether its modification time is
within the five-minute recency window of that pass. -/
structure DiskFile where
  path : String
  matchesCompositorGlob : Bool
  recent : Bool
deriving DecidableEq, Repr

structure CompositorJob where
  status : String
  outputPath : Option String
deriving DecidableEq, Repr

/-- Server state the cancellation route manipulates: the job record and the
files on disk. -/
structure ServerState where
  job : CompositorJob
  files : List DiskFile
deriving DecidableEq, Repr

/-- Failure handling of process_compositor_job: the exception raised on a
nonzero external exit (process_composition raises without any cleanup) only
marks the job failed; no file is touched. -/
def jobFailTransition (s : ServerState) : ServerState :=
{ s with job := { s.job with status := "failed" } }

/-- Cancellation route for a job in processing: kill the external processes,
delete the recorded output path when present, delete every recent
compositor_*.mp4 in the output directory, and mark the job failed; for any
other status the job record is simply removed and no file is touched. -/
def cancelTransition (s : ServerState) : ServerState :=
if s.job.status = "processing" then
  let files1 :=
    match s.job.outputPath with
    | some p => s.files.filter (fun f : DiskFile => ¬ f.path = p)
    | none => s.files
  let files2 := files1.filter (fun f : DiskFile => ¬ (f.matchesCompositorGlob && f.recent))
  { job := { s.job with status := "failed" }, files := files2 }
else s

def partialOutputFile : DiskFile :=
  { path := "output/compositor_1760000000000.mp4", matchesCompositorGlob := true,
    recent := true }

def failingJobState : ServerState :=
  { job := { status := "processing", outputPath := none },
    files := [partialOutputFile] }

/-- C9 counterexample: a processing job whose external process exits nonzero
reaches the terminal failed status with its partially written output file still
on disk: the failure path performs no deletion. -/
theorem C9_failed_job_keeps_partial_output :
    (jobFailTransition failingJobState).job.status = "failed" ∧
    partialOutputFile ∈ (jobFailTransition failingJobState).files := by
  constructor
  · rfl
  · exact List.mem_singleton.mpr rfl

/-- C9 amended: only explicit cancellation cleans up: cancelling a processing
job deletes the recorded output path and every recent compositor output file,
and marks the job failed; after a plain failure the partial output remains. -/
theorem C9_cancel_deletes_partial_output (s : ServerState)
    (hs : s.job.status = "processing") :
    (cancelTransition s).job.status = "failed" ∧
    (∀ f : DiskFile, f ∈ (cancelTransition s).files →
      ¬ (f.matchesCompositorGlob = true ∧ f.recent = true)) ∧
    (∀ p, s.job.outputPath = some p →
      ∀ f : DiskFile, f ∈ (cancelTransition s).files → f.path ≠ p) := by
  refine ⟨?_, ?_, ?_⟩
  · simp [cancelTransition, hs]
  · intro f hf
    simp only [cancelTransition, if_pos hs] at hf
    have := List.of_mem_filter hf
    intro hcontra
    simp [hcontra.1, hcontra.2] at this
  · intro p hp f hf
    simp only [cancelTransition, if_pos hs, hp] at hf
    have hf1 := List.mem_of_mem_filter hf
    have := List.of_mem_filter hf1
    simpa using this

def uploadsMainFile : DiskFile :=
  { path := "uploads/main.mp4", matchesCompositorGlob := false, recent := false }

def cancelDemoState : ServerState :=
  { job := { status := "processing"
             outputPath := some "output/compositor_1760000000000.mp4" }
    files := [partialOutputFile, uploadsMainFile] }

/-- C9 witness: the cancellation theorem evaluated on a processing job with a
recorded output path and two files on disk. -/
theorem C9_cancel_deletes_partial_output_witness :
    (cancelTransition cancelDemoState).job.status = "failed" ∧
    (∀ f : DiskFile, f ∈ (cancelTransition cancelDemoState).files →
      ¬ (f.matchesCompositorGlob = true ∧ f.recent = true)) ∧
    (∀ p, cancelDemoState.job.outputPath = some p →
      ∀ f : DiskFile, f ∈ (cancelTransition cancelDemoState).files → f.path ≠ p) :=
  C9_cancel_deletes_partial_output cancelDemoState rfl

/-! ## Alpha compositing (chromakey_service.py, overlay image helper)

The overlay helper receives the canvas, the scaled layer, its mask, a pixel
position and an opacity. When the layer rectangle is not fully inside the
canvas it crops with raw Python slice arithmetic: slice bounds may be negative
(numpy then wraps them by the axis length) or past the axis (numpy clamps), the
cropped mask feeds cv2.cvtColor, which asserts a nonempty source, and the blend
multiplies arrays whose axes numpy only accepts when equal or one. All of that
is modelled exactly; the happy-path pixels use the blend formula with the uint8
cast of the result. -/

/-- One Python slice bound as numpy normalises it for an axis of the given
length: a negative index is wrapped by the length, then the result is clamped
into the closed range from zero to the length. -/
def pySliceBound (len : ℕ) (i : ℤ) : ℕ :=
let j : ℤ := if i < 0 then i + len else i
if j < 0 then 0 else if (len : ℤ) < j then len else j.toNat

/-- Number of elements a unit-step slice selects on an axis of the given
length. -/
def pySliceLen (len : ℕ) (start stop : ℤ) : ℕ :=
pySliceBound len stop - pySliceBound len start

/-- Numpy broadcasting accepts two axis extents when they are equal or one of
them is one. -/
def bcastOk (a b : ℕ) : Bool :=
a == b || a == 1 || b == 1

/-- Broadcast extent of two compatible axes. -/
def bcastDim (a b : ℕ) : ℕ :=
if a = 1 then b else a

/-- Index into an axis that may have been broadcast from extent one. -/
def bcastIdx (a i : ℕ) : ℕ :=
if a = 1 then 0 else i

/-- Three-channel image buffer: height, width and the pixel map. -/
structure Img where
  h : ℕ
  w : ℕ
  pix : ℕ → ℕ → Fin 3 → ℚ

/-- Single-channel mask buffer. -/
structure Mask1 where
  h : ℕ
  w : ℕ
  pix : ℕ → ℕ → ℚ

/-- Uint8 cast numpy applies to the blend result; the convex blend of uint8
pixels lies in the unit range times 255 so the cast is plain truncation. -/
def u8 (q : ℚ) : ℚ :=
((⌊q⌋.toNat % 256 : ℕ) : ℚ)

def isErr {ε α : Type} : Except ε α → Bool
  | .error _ => true
  | .ok _ => false

/-- Shared blend tail of both branches of the overlay helper: the mask crop is
converted to three channels (cv2.cvtColor asserts it is nonempty), scaled by
255 and the opacity, multiplied against the layer crop and the canvas region
(each product and their sum subject to numpy broadcasting), cast to uint8 and
assigned back into the canvas rectangle (the assignment broadcasts too). The
rectangle is rowStart colStart with extents rh rw; the layer crop starts at
fgRow0 fgCol0 with extents fh fw; the mask crop at mRow0 mCol0 with extents mh
mw. -/
def blendCore (bg fg : Img) (mask : Mask1)
    (rowStart colStart rh rw : ℕ)
    (fgRow0 fgCol0 fh fw : ℕ)
    (mRow0 mCol0 mh mw : ℕ)
    (opacity : ℚ) : Except String Img :=
if mh = 0 ∨ mw = 0 then .error "cv2.error: cvtColor source is empty"
else if bcastOk fh mh && bcastOk fw mw then
  if bcastOk rh mh && bcastOk rw mw then
    let ph := bcastDim fh mh
    let pw := bcastDim fw mw
    let qh := bcastDim rh mh
    let qw := bcastDim rw mw
    if bcastOk ph qh && bcastOk pw qw then
      let bh := bcastDim ph qh
      let bw := bcastDim pw qw
      if (bh = rh ∨ bh = 1) ∧ (bw = rw ∨ bw = 1) then
        let alphaAt : ℕ → ℕ → ℚ := fun i j =>
          mask.pix (mRow0 + i) (mCol0 + j) / 255 * opacity
        let p1 : ℕ → ℕ → Fin 3 → ℚ := fun i j c =>
          fg.pix (fgRow0 + bcastIdx fh i) (fgCol0 + bcastIdx fw j) c *
            alphaAt (bcastIdx mh i) (bcastIdx mw j)
        let p2 : ℕ → ℕ → Fin 3 → ℚ := fun i j c =>
          bg.pix (rowStart + bcastIdx rh i) (colStart + bcastIdx rw j) c *
            (1 - alphaAt (bcastIdx mh i) (bcastIdx mw j))
        let blended : ℕ → ℕ → Fin 3 → ℚ := fun i j c =>
          u8 (p1 (bcastIdx ph i) (bcastIdx pw j) c + p2 (bcastIdx qh i) (bcastIdx qw j) c)
        .ok { h := bg.h, w := bg.w
              pix := fun r c ch =>
                if rowStart ≤ r ∧ r < rowStart + rh ∧ colStart ≤ c ∧ c < colStart + rw then
                  blended (bcastIdx bh (r - rowStart)) (bcastIdx bw (c - colStart)) ch
                else bg.pix r c ch }
      else .error "numpy broadcast error: assignment into the canvas region"
    else .error "numpy broadcast error: sum of the two blend products"
  else .error "numpy broadcast error: canvas region against the mask"
else .error "numpy broadcast error: layer crop against the mask"

/-- Overlay helper of ChromakeyService: when the layer rectangle is not fully
inside the canvas, crop both the layer and the canvas region with raw slice
arithmetic and blend the crops; otherwise blend the whole layer onto the
in-bounds region. -/
def overlayImage (bg fg : Img) (mask : Mask1) (x y : ℤ) (opacity : ℚ) :
    Except String Img :=
if x < 0 ∨ y < 0 ∨ (bg.w : ℤ) < x + fg.w ∨ (bg.h : ℤ) < y + fg.h then
  let xStart : ℤ := max 0 x
  let yStart : ℤ := max 0 y
  let xEnd : ℤ := min (bg.w : ℤ) (x + fg.w)
  let yEnd : ℤ := min (bg.h : ℤ) (y + fg.h)
  let fgXStart : ℤ := max 0 (-x)
  let fgYStart : ℤ := max 0 (-y)
  let fgXEnd : ℤ := fgXStart + (xEnd - xStart)
  let fgYEnd : ℤ := fgYStart + (yEnd - yStart)
  blendCore bg fg mask
    (pySliceBound bg.h yStart) (pySliceBound bg.w xStart)
    (pySliceLen bg.h yStart yEnd) (pySliceLen bg.w xStart xEnd)
    (pySliceBound fg.h fgYStart) (pySliceBound fg.w fgXStart)
    (pySliceLen fg.h fgYStart fgYEnd) (pySliceLen fg.w fgXStart fgXEnd)
    (pySliceBound mask.h fgYStart) (pySliceBound mask.w fgXStart)
    (pySliceLen mask.h fgYStart fgYEnd) (pySliceLen mask.w fgXStart fgXEnd)
    opacity
else
  blendCore bg fg mask
    y.toNat x.toNat fg.h fg.w
    0 0 fg.h fg.w
    0 0 mask.h mask.w
    opacity

def bgDemo : Img := { h := 4, w := 4, pix := fun _ _ _ => 20 }

def fgDemo : Img := { h := 2, w := 5, pix := fun _ _ _ => 200 }

def maskDemo : Mask1 := { h := 2, w := 5, pix := fun _ _ => 255 }

/-- C4 counterexample: a 5 wide, 2 tall layer placed at x 5 against a 4 by 4
canvas lies entirely outside the canvas (5 is at least the canvas width), yet
the overlay is not a silent no-op: the crop arithmetic leaves a zero-width
canvas region against a four-wide mask crop and the blend raises a numpy
broadcast error. -/
theorem C4_fully_outside_is_not_noop :
    ((bgDemo.w : ℤ) ≤ 5) ∧
    isErr (overlayImage bgDemo fgDemo maskDemo 5 0 1) = true := by
  constructor
  · decide
  · decide

theorem blendCore_err_empty_mask (bg fg : Img) (mask : Mask1)
    (rowStart colStart rh rw fgRow0 fgCol0 fh fw mRow0 mCol0 mh mw : ℕ)
    (opacity : ℚ) (h : mh = 0 ∨ mw = 0) :
    isErr (blendCore bg fg mask rowStart colStart rh rw fgRow0 fgCol0 fh fw
      mRow0 mCol0 mh mw opacity) = true := by
  rw [blendCore, if_pos h]
  rfl

theorem blendCore_err_zero_region (bg fg : Img) (mask : Mask1)
    (rowStart colStart rh rw fgRow0 fgCol0 fh fw mRow0 mCol0 mh mw : ℕ)
    (opacity : ℚ) (hfh : fh = mh) (hfw : fw = mw) (hrh : rh = mh) (hrw : rw = 0)
    (hmh : mh ≠ 0) (hmw : 2 ≤ mw) :
    isErr (blendCore bg fg mask rowStart colStart rh rw fgRow0 fgCol0 fh fw
      mRow0 mCol0 mh mw opacity) = true := by
  have h1 : ¬ (mh = 0 ∨ mw = 0) := by omega
  have h2 : (bcastOk fh mh && bcastOk fw mw) = true := by
    rw [hfh, hfw]
    simp [bcastOk]
  have h3 : (bcastOk rh mh && bcastOk rw mw) = false := by
    rw [hrh, hrw]
    have hz : bcastOk 0 mw = false := by
      simp only [bcastOk, Bool.or_eq_false_iff, beq_eq_false_iff_ne]
      refine ⟨⟨?_, ?_⟩, ?_⟩ <;> omega
    simp [hz]
  simp [blendCore, h1, h2, h3, isErr]

/-- For a placement at or beyond the right canvas edge with the layer
vertically inside, the overlay raises unless the wrapped slice arithmetic
leaves exactly a one pixel wide layer crop: an empty-source color-conversion
error when the crop is empty, a numpy broadcast error otherwise, because the
canvas region is zero wide. -/
theorem overlayImage_outside_right_isErr (bg fg : Img) (mask : Mask1) (x y : ℤ)
    (opacity : ℚ)
    (hmh : mask.h = fg.h) (hmw : mask.w = fg.w)
    (hfh : 1 ≤ fg.h) (hfw : 1 ≤ fg.w)
    (hy0 : 0 ≤ y) (hyh : y + fg.h ≤ (bg.h : ℤ))
    (hx : (bg.w : ℤ) ≤ x)
    (hone : x + 1 ≠ (fg.w : ℤ) + bg.w) :
    isErr (overlayImage bg fg mask x y opacity) = true := by
  have hx0 : (0 : ℤ) ≤ x := le_trans (Int.natCast_nonneg bg.w) hx
  have hcond : x < 0 ∨ y < 0 ∨ (bg.w : ℤ) < x + fg.w ∨ (bg.h : ℤ) < y + fg.h := by
    right; right; left
    omega
  simp only [overlayImage]
  rw [if_pos hcond, hmh, hmw]
  rw [max_eq_right hy0, min_eq_right hyh, max_eq_right hx0,
    min_eq_left (by omega : (bg.w : ℤ) ≤ x + fg.w),
    max_eq_left (by omega : -x ≤ (0 : ℤ)),
    max_eq_left (by omega : -y ≤ (0 : ℤ))]
  rw [(by ring : (0 : ℤ) + (y + fg.h - y) = fg.h),
    (by ring : (0 : ℤ) + ((bg.w : ℤ) - x) = (bg.w : ℤ) - x)]
  have hC : pySliceLen bg.h y (y + fg.h) = fg.h := by
    simp only [pySliceLen, pySliceBound]
    split_ifs <;> omega
  have hD : pySliceLen bg.w x (bg.w : ℤ) = 0 := by
    simp only [pySliceLen, pySliceBound]
    split_ifs <;> omega
  have hG : pySliceLen fg.h 0 (fg.h : ℤ) = fg.h := by
    simp only [pySliceLen, pySliceBound]
    split_ifs <;> omega
  rw [hC, hD, hG]
  by_cases hcw : pySliceLen fg.w 0 ((bg.w : ℤ) - x) = 0
  · rw [hcw]
    exact blendCore_err_empty_mask bg fg mask _ _ _ _ _ _ _ _ _ _ _ _ opacity
      (Or.inr rfl)
  · have h2cw : 2 ≤ pySliceLen fg.w 0 ((bg.w : ℤ) - x) := by
      simp only [pySliceLen, pySliceBound] at hcw ⊢
      split_ifs at hcw ⊢ <;> omega
    exact blendCore_err_zero_region bg fg mask _ _ _ _ _ _ _ _ _ _ _ _ opacity
      rfl rfl rfl rfl (by omega) h2cw

def fgBelow : Img := { h := 3, w := 2, pix := fun _ _ _ => 200 }

def maskBelow : Mask1 := { h := 3, w := 2, pix := fun _ _ => 255 }

/-- Pixel of a successful overlay result; zero when the overlay raised. -/
def okPix (e : Except String Img) (r c : ℕ) (ch : Fin 3) : ℚ :=
match e with
| .ok img => img.pix r c ch
| .error _ => 0

/-- C4 amended: an offset placing the layer fully outside the canvas is not
reliably a silent no-op. Every placement at or beyond the right canvas edge
with the layer vertically inside raises unless the wrapped slice arithmetic
leaves exactly a one pixel wide layer crop (an empty-source color-conversion
error when the crop is empty, a numpy broadcast error otherwise, because the
canvas region is zero wide); yet other fully-outside placements do return
silently with the canvas unchanged, as the 2 wide, 3 tall layer placed fully
below the 4 by 4 canvas at row 6 does, its wrapped crop being one pixel tall
so that every product broadcasts and the assignment region is empty. -/
theorem C4_outside_not_noop :
    (∀ (bg fg : Img) (mask : Mask1) (x y : ℤ) (opacity : ℚ),
      mask.h = fg.h → mask.w = fg.w → 1 ≤ fg.h → 1 ≤ fg.w →
      0 ≤ y → y + fg.h ≤ (bg.h : ℤ) → (bg.w : ℤ) ≤ x →
      x + 1 ≠ (fg.w : ℤ) + bg.w →
      isErr (overlayImage bg fg mask x y opacity) = true) ∧
    (isErr (overlayImage bgDemo fgBelow maskBelow 0 6 1) = false ∧
      ∀ r, r < bgDemo.h → ∀ c, c < bgDemo.w → ∀ ch : Fin 3,
        okPix (overlayImage bgDemo fgBelow maskBelow 0 6 1) r c ch =
          bgDemo.pix r c ch) := by
  refine ⟨?_, ?_, ?_⟩
  · intro bg fg mask x y opacity hmh hmw hfh hfw hy0 hyh hx hone
    exact overlayImage_outside_right_isErr bg fg mask x y opacity
      hmh hmw hfh hfw hy0 hyh hx hone
  · decide
  · decide

/-- C4 witness: the raising half of the amended theorem evaluated at the demo
buffers with the layer placed at x 7, fully beyond the right edge of the 4
wide canvas, together with the silent no-op half. -/
theorem C4_outside_not_noop_witness :
    isErr (overlayImage bgDemo fgDemo maskDemo 7 0 1) = true ∧
    isErr (overlayImage bgDemo fgBelow maskBelow 0 6 1) = false :=
  ⟨C4_outside_not_noop.1 bgDemo fgDemo maskDemo 7 0 1
    rfl rfl (by decide) (by decide) (by decide) (by decide) (by decide) (by decide),
   C4_outside_not_noop.2.1⟩

end AIVideoMaker
